import Mathlib

/-!
Verification of the logged, validated XML document accessor in `src/lab6.py`
(class `XMLFileHandler` with the `logged` decorator), via a shallow embedding:
the XML element tree mirrors `xml.etree.ElementTree.Element`, the filesystem is
an explicit association list from paths to entries, and the logging decorator is
modelled as a state-passing higher-order function over an explicit log state.
-/

namespace Lab6

/-- Mirror of `xml.etree.ElementTree.Element`: a tag, an ordered attribute list,
optional text (the text before the first child), an ordered list of children,
and an optional tail (the text after this element's end tag inside its parent).
-/
inductive Element : Type where
  | mk : String → List (String × String) → Option String → List Element →
      Option String → Element

def Element.tag : Element → String
  | .mk t _ _ _ _ => t

def Element.attrib : Element → List (String × String)
  | .mk _ a _ _ _ => a

def Element.text : Element → Option String
  | .mk _ _ tx _ _ => tx

def Element.children : Element → List Element
  | .mk _ _ _ cs _ => cs

def Element.tail : Element → Option String
  | .mk _ _ _ _ tl => tl

def Element.setTail (e : Element) (tl : Option String) : Element :=
  match e with
  | .mk t a tx cs _ => .mk t a tx cs tl

/-- Models the Python test `not s or not s.strip()` on an optional string
field: true when the field is `None`, empty, or whitespace-only. -/
def wsOnly : Option String → Bool
  | none => true
  | some s => s.data.all Char.isWhitespace

/-- The indentation string for nesting depth `lvl` used by
`ET.indent(tree, space="  ")`: a newline followed by `lvl` copies of the
two-space `space` argument from `lab6.py`. -/
def indStr (lvl : Nat) : String :=
  ⟨'\n' :: List.replicate (2 * lvl) ' '⟩

/-- `_indent_children`'s post-loop dedent step: if the last child's tail is
empty or whitespace-only (which it is whenever the loop just set it), replace
it with the parent-level indentation. -/
def dedentLast (ind : String) : List Element → List Element
  | [] => []
  | [c] => [if wsOnly c.tail then c.setTail (some ind) else c]
  | c :: c' :: cs => c :: dedentLast ind (c' :: cs)

mutual

/-- `ET.indent`'s inner `_indent_children(elem, level)`: sets `elem.text` to
the child-level indentation when it is missing or whitespace-only, recurses
into children that themselves have children, sets each child's whitespace-only
tail to the child-level indentation, and finally dedents the last child's tail
to the parent level.  The element's own tail is left to its parent. -/
def indentChildren (lvl : Nat) : Element → Element
  | .mk t a tx cs tl =>
    let tx2 := if wsOnly tx then some (indStr (lvl + 1)) else tx
    .mk t a tx2 (dedentLast (indStr lvl) (indentKids lvl cs)) tl

/-- The loop body of `_indent_children` over the list of children. -/
def indentKids (lvl : Nat) : List Element → List Element
  | [] => []
  | c :: cs =>
    let c1 := if c.children.isEmpty then c else indentChildren (lvl + 1) c
    let c2 := if wsOnly c1.tail then c1.setTail (some (indStr (lvl + 1))) else c1
    c2 :: indentKids lvl cs

end

/-- `ET.indent(tree, space="  ")` at level 0, as called by `write` and
`append` in `lab6.py`: a no-op when the root has no children. -/
def ETindent (root : Element) : Element :=
  if root.children.isEmpty then root else indentChildren 0 root

mutual

/-- Whitespace normalization: erase whitespace-only text and tail fields
throughout the tree.  Two elements are equal "modulo whitespace/indentation
formatting" exactly when their normalizations are equal. -/
def stripWS : Element → Element
  | .mk t a tx cs tl =>
    .mk t a (if wsOnly tx then none else tx) (stripKids cs)
      (if wsOnly tl then none else tl)

/-- `stripWS` mapped over a list of children. -/
def stripKids : List Element → List Element
  | [] => []
  | c :: cs => stripWS c :: stripKids cs

end

theorem wsOnly_indStr (lvl : Nat) : wsOnly (some (indStr lvl)) = true := by
  simp only [wsOnly, indStr]
  show List.all _ _ = true
  rw [List.all_eq_true]
  intro c hc
  rcases List.mem_cons.mp hc with rfl | hc
  · decide
  · rcases List.eq_of_mem_replicate hc with rfl
    decide

theorem stripWS_setTail_ws (c : Element) (s : String)
    (hc : wsOnly c.tail = true) (hs : wsOnly (some s) = true) :
    stripWS (c.setTail (some s)) = stripWS c := by
  cases c with
  | mk t a tx cs tl =>
    simp only [Element.setTail, stripWS, Element.tail] at *
    rw [hc, hs]
    simp

theorem stripKids_dedentLast (ind : String) (hs : wsOnly (some ind) = true) :
    ∀ cs : List Element, stripKids (dedentLast ind cs) = stripKids cs := by
  intro cs
  induction cs with
  | nil => rfl
  | cons c cs ih =>
    cases cs with
    | nil =>
      simp only [dedentLast, stripKids]
      by_cases hc : wsOnly c.tail = true
      · rw [if_pos hc, stripWS_setTail_ws c ind hc hs]
      · rw [if_neg hc]
    | cons c' cs' =>
      simp only [dedentLast, stripKids] at *
      rw [ih]

mutual

theorem stripWS_indentChildren : ∀ (lvl : Nat) (e : Element),
    stripWS (indentChildren lvl e) = stripWS e
  | lvl, .mk t a tx cs tl => by
    simp only [indentChildren, stripWS]
    rw [stripKids_dedentLast _ (wsOnly_indStr lvl), stripKids_indentKids lvl cs]
    by_cases h : wsOnly tx = true
    · rw [if_pos h, if_pos h, if_pos (wsOnly_indStr (lvl + 1))]
    · rw [if_neg h, if_neg h]

theorem stripKids_indentKids : ∀ (lvl : Nat) (cs : List Element),
    stripKids (indentKids lvl cs) = stripKids cs
  | _, [] => rfl
  | lvl, c :: cs => by
    simp only [indentKids, stripKids]
    have h1 : stripWS (if c.children.isEmpty then c
        else indentChildren (lvl + 1) c) = stripWS c := by
      by_cases hc : c.children.isEmpty
      · rw [if_pos hc]
      · rw [if_neg hc, stripWS_indentChildren (lvl + 1) c]
    rw [stripKids_indentKids lvl cs]
    congr 1
    set c1 := if c.children.isEmpty then c else indentChildren (lvl + 1) c
    by_cases ht : wsOnly c1.tail = true
    · rw [if_pos ht, stripWS_setTail_ws c1 _ ht (wsOnly_indStr (lvl + 1)), h1]
    · rw [if_neg ht, h1]

end

/-- `ET.indent` changes only whitespace/indentation formatting: the
whitespace-normalized tree is unchanged. -/
theorem stripWS_ETindent (root : Element) : stripWS (ETindent root) = stripWS root := by
  unfold ETindent
  by_cases h : root.children.isEmpty
  · rw [if_pos h]
  · rw [if_neg h, stripWS_indentChildren 0 root]

/-- Content of a regular file, as far as `ET.parse` is concerned: either a
well-formed XML document (its root element) or unparseable text. -/
inductive Content : Type where
  | xml : Element → Content
  | raw : String → Content

/-- What a path can hold on disk: a regular file (with read/write permission
bits and content) or a directory. -/
inductive Entry : Type where
  | file : Bool → Bool → Content → Entry
  | dir : Entry

/-- The filesystem: an association list from path strings to entries. -/
def FS : Type := List (String × Entry)

def FS.lookup (fs : FS) (p : String) : Option Entry :=
  List.lookup p fs

def FS.set (fs : FS) (p : String) (e : Entry) : FS :=
  match fs with
  | [] => [(p, e)]
  | (q, v) :: rest => if q = p then (p, e) :: rest else (q, v) :: FS.set rest p e

/-- Exceptions the underlying library and OS can raise into `lab6.py`'s
`try` blocks: `ET.ParseError`, `PermissionError`, and any other `Exception`
(e.g. `IsADirectoryError`, `FileNotFoundError`), each carrying `str(e)`. -/
inductive PyExc : Type where
  | parseError : String → PyExc
  | permissionError : String → PyExc
  | other : String → PyExc

/-- The repository's error types: `CustomFileNotFoundError(msg)` and
`FileCorruptedError(filepath, msg)` (raised with two positional args). -/
inductive Err : Type where
  | fileNotFound : String → Err
  | fileCorrupted : String → String → Err

/-- `ET.parse(p)`: opening and parsing the file at `p`.  A missing path raises
`FileNotFoundError`, a directory raises `IsADirectoryError` (both plain
`Exception`s here), an unreadable file raises `PermissionError`, unparseable
content raises `ET.ParseError`, and a well-formed file yields its root. -/
def fsParse (fs : FS) (p : String) : Except PyExc Element :=
  match fs.lookup p with
  | none => .error (.other ("[Errno 2] No such file or directory: " ++ p))
  | some .dir => .error (.other ("[Errno 21] Is a directory: " ++ p))
  | some (.file false _ _) =>
      .error (.permissionError ("[Errno 13] Permission denied: " ++ p))
  | some (.file true _ (.xml root)) => .ok root
  | some (.file true _ (.raw _)) =>
      .error (.parseError ("syntax error: line 1, column 0"))

/-- `tree.write(p, ...)`: replace the content of the file at `p` with the
serialized tree, creating the file when absent.  A directory raises
`IsADirectoryError`; a write-protected file raises `PermissionError`. -/
def fsWrite (fs : FS) (p : String) (root : Element) : Except PyExc FS :=
  match fs.lookup p with
  | some .dir => .error (.other ("[Errno 21] Is a directory: " ++ p))
  | some (.file _ false _) =>
      .error (.permissionError ("[Errno 13] Permission denied: " ++ p))
  | some (.file r true _) => .ok (fs.set p (.file r true (.xml root)))
  | none => .ok (fs.set p (.file true true (.xml root)))

/-- The `except` chain shared by `read` and `append` in `lab6.py`:
`ET.ParseError as e` → `FileCorruptedError(self.filepath, f"XML error: {e}")`;
`PermissionError` → `FileCorruptedError(self.filepath, "Permission denied")`;
`Exception as e` → `FileCorruptedError(self.filepath, str(e))`.
`write` has no `ParseError` clause, but `ET.ParseError` never arises there, so
the same mapping models all three methods. -/
def wrapExc (filepath : String) : PyExc → Err
  | .parseError m => .fileCorrupted filepath ("XML error: " ++ m)
  | .permissionError _ => .fileCorrupted filepath "Permission denied"
  | .other m => .fileCorrupted filepath m

/-- `XMLFileHandler`: stores the validated filepath. -/
structure XMLFileHandler : Type where
  filepath : String

/-- `XMLFileHandler.__init__`: store the filepath, then raise
`CustomFileNotFoundError` iff `os.path.exists(filepath)` is false
(`os.path.exists` is true for directories as well as files). -/
def XMLFileHandler.init (fs : FS) (filepath : String) :
    Except Err XMLFileHandler :=
  if (fs.lookup filepath).isSome then .ok ⟨filepath⟩
  else .error (.fileNotFound ("File not found: " ++ filepath))

/-- `XMLFileHandler.read`: `ET.parse(self.filepath).getroot()` with failures
wrapped by the `except` chain.  Returns the (unchanged) filesystem alongside
the result, since the method only reads. -/
def XMLFileHandler.read (h : XMLFileHandler) (fs : FS) :
    Except Err Element × FS :=
  match fsParse fs h.filepath with
  | .ok root => (.ok root, fs)
  | .error exc => (.error (wrapExc h.filepath exc), fs)

/-- `XMLFileHandler.write`: build a tree from `root`, `ET.indent` it with
two-space indentation, and overwrite the file, with failures wrapped. -/
def XMLFileHandler.write (h : XMLFileHandler) (root : Element) (fs : FS) :
    Except Err Unit × FS :=
  match fsWrite fs h.filepath (ETindent root) with
  | .ok fs2 => (.ok (), fs2)
  | .error exc => (.error (wrapExc h.filepath exc), fs)

/-- `root.append(new_element)`: attach `c` as the last child of `e`. -/
def Element.appendChild (e c : Element) : Element :=
  match e with
  | .mk t a tx cs tl => .mk t a tx (cs ++ [c]) tl

/-- `XMLFileHandler.append`: parse the file, append `newElement` as the last
child of the root, `ET.indent` the whole tree, and write it back, with
failures wrapped. -/
def XMLFileHandler.append (h : XMLFileHandler) (newElement : Element)
    (fs : FS) : Except Err Unit × FS :=
  match fsParse fs h.filepath with
  | .error exc => (.error (wrapExc h.filepath exc), fs)
  | .ok root =>
    match fsWrite fs h.filepath (ETindent (root.appendChild newElement)) with
    | .ok fs2 => (.ok (), fs2)
    | .error exc => (.error (wrapExc h.filepath exc), fs)

inductive Level : Type where
  | info : Level
  | error : Level

/-- A record emitted through the handler attached for one call: the logger
name (`func.__name__`), the sink mode (`console` or `file`), the severity and
the formatted message. -/
structure LogRecord : Type where
  logger : String
  mode : String
  level : Level
  msg : String

/-- The mutable state the decorator touches: the per-name logger's handler
list, the set of currently open sink handles, the stream of emitted records,
and a supply of fresh handle ids. -/
structure LogState : Type where
  nextId : Nat
  openHandles : List Nat
  handlers : List Nat
  records : List LogRecord

def emit (s : LogState) (logger mode : String) (lvl : Level) (msg : String) :
    LogState :=
  { s with records := s.records ++ [⟨logger, mode, lvl, msg⟩] }

/-- `handler.close()` followed by `logger.removeHandler(handler)`. -/
def closeHandler (s : LogState) (hid : Nat) : LogState :=
  { s with
    openHandles := s.openHandles.filter (fun h => h ≠ hid)
    handlers := s.handlers.filter (fun h => h ≠ hid) }

/-- A model of `str(e)` for the watched `FileCorruptedError(filepath, msg)`
(Python renders the two-argument tuple). -/
def errStr : Err → String
  | .fileNotFound m => m
  | .fileCorrupted p m => "(" ++ p ++ ", " ++ m ++ ")"

/-- The `wrapper` produced by the `logged(exception_type, mode)` decorator in
`lab6.py`: per call it clears the logger's handlers, acquires a fresh sink
handle (console stream or the `file_operations.log` file), registers it, logs
"Calling f", runs the wrapped operation, logs success or — when the raised
error matches `exception_type` — an error record, and in a `finally` block
closes and removes the handler; the result or error itself passes through
unchanged. -/
def logged {α σ : Type} (watched : Err → Bool) (excName funcName mode : String)
    (func : σ → Except Err α × σ) (st : σ) (s : LogState) :
    (Except Err α × σ) × LogState :=
  let s1 : LogState := { s with handlers := [] }
  let hid := s1.nextId
  let s2 : LogState := { s1 with
    nextId := hid + 1
    openHandles := s1.openHandles ++ [hid] }
  let s3 : LogState := { s2 with handlers := s2.handlers ++ [hid] }
  let s4 := emit s3 funcName mode .info ("Calling " ++ funcName)
  match func st with
  | (.ok b, st2) =>
    let s5 := emit s4 funcName mode .info (funcName ++ " executed successfully")
    ((.ok b, st2), closeHandler s5 hid)
  | (.error e, st2) =>
    let s5 :=
      if watched e then
        emit s4 funcName mode .error (excName ++ ": " ++ errStr e)
      else s4
    ((.error e, st2), closeHandler s5 hid)

/-- The watched category in `lab6.py`: all three methods are decorated with
`@logged(FileCorruptedError, ...)`. -/
def isFileCorrupted : Err → Bool
  | .fileCorrupted _ _ => true
  | .fileNotFound _ => false

/-- `read` as decorated: `@logged(FileCorruptedError, mode="console")`. -/
def XMLFileHandler.readLogged (h : XMLFileHandler) (fs : FS) (s : LogState) :
    (Except Err Element × FS) × LogState :=
  logged isFileCorrupted "FileCorruptedError" "read" "console" h.read fs s

/-- `write` as decorated: `@logged(FileCorruptedError, mode="file")`. -/
def XMLFileHandler.writeLogged (h : XMLFileHandler) (root : Element) (fs : FS)
    (s : LogState) : (Except Err Unit × FS) × LogState :=
  logged isFileCorrupted "FileCorruptedError" "write" "file" (h.write root) fs s

/-- `append` as decorated: `@logged(FileCorruptedError, mode="file")`. -/
def XMLFileHandler.appendLogged (h : XMLFileHandler) (e : Element) (fs : FS)
    (s : LogState) : (Except Err Unit × FS) × LogState :=
  logged isFileCorrupted "FileCorruptedError" "append" "file" (h.append e) fs s

theorem FS.lookup_set_self (fs : FS) (p : String) (e : Entry) :
    (fs.set p e).lookup p = some e := by
  induction fs with
  | nil => simp [FS.set, FS.lookup, List.lookup]
  | cons qv rest ih =>
    rcases qv with ⟨q, v⟩
    by_cases hq : q = p
    · simp [FS.set, hq, FS.lookup, List.lookup]
    · simp only [FS.set, if_neg hq]
      show List.lookup p ((q, v) :: FS.set rest p e) = some e
      have hb : (p == q) = false := beq_eq_false_iff_ne.mpr fun hpq => hq hpq.symm
      simp only [List.lookup, hb]
      exact ih

theorem stripKids_append (xs : List Element) (e : Element) :
    stripKids (xs ++ [e]) = stripKids xs ++ [stripWS e] := by
  induction xs with
  | nil => rfl
  | cons c cs ih =>
    show stripWS c :: stripKids (cs ++ [e]) = _
    rw [ih]
    rfl

theorem stripKids_length (xs : List Element) :
    (stripKids xs).length = xs.length := by
  induction xs with
  | nil => rfl
  | cons c cs ih => simp only [stripKids, List.length_cons, ih]

theorem logged_result (α σ : Type) (watched : Err → Bool)
    (excName funcName mode : String) (func : σ → Except Err α × σ)
    (st : σ) (s : LogState) :
    (logged watched excName funcName mode func st s).1 = func st := by
  unfold logged
  rcases hf : func st with ⟨r, st2⟩
  cases r <;> rfl

theorem wrapExc_isFileCorrupted (p : String) (exc : PyExc) :
    isFileCorrupted (wrapExc p exc) = true := by
  cases exc <;> rfl

theorem read_error_watched (h : XMLFileHandler) (fs : FS) (e : Err)
    (fs2 : FS) (he : h.read fs = (.error e, fs2)) :
    isFileCorrupted e = true := by
  unfold XMLFileHandler.read at he
  rcases hp : fsParse fs h.filepath with exc | root <;> rw [hp] at he
  · simp only [Prod.mk.injEq, Except.error.injEq] at he
    rw [← he.1]
    exact wrapExc_isFileCorrupted _ _
  · simp at he

theorem write_error_watched (h : XMLFileHandler) (root : Element) (fs : FS)
    (e : Err) (fs2 : FS) (he : h.write root fs = (.error e, fs2)) :
    isFileCorrupted e = true := by
  unfold XMLFileHandler.write at he
  rcases hp : fsWrite fs h.filepath (ETindent root) with exc | fs3 <;>
    rw [hp] at he
  · simp only [Prod.mk.injEq, Except.error.injEq] at he
    rw [← he.1]
    exact wrapExc_isFileCorrupted _ _
  · simp at he

theorem append_error_watched (h : XMLFileHandler) (ne : Element) (fs : FS)
    (e : Err) (fs2 : FS) (he : h.append ne fs = (.error e, fs2)) :
    isFileCorrupted e = true := by
  unfold XMLFileHandler.append at he
  rcases hp : fsParse fs h.filepath with exc | root <;> rw [hp] at he
  · simp only [Prod.mk.injEq, Except.error.injEq] at he
    rw [← he.1]
    exact wrapExc_isFileCorrupted _ _
  · dsimp only at he
    rcases hw2 : fsWrite fs h.filepath (ETindent (root.appendChild ne))
      with exc2 | fs3 <;> rw [hw2] at he
    · simp only [Prod.mk.injEq, Except.error.injEq] at he
      rw [← he.1]
      exact wrapExc_isFileCorrupted _ _
    · simp at he

theorem logged_records_two (α σ : Type) (watched : Err → Bool)
    (excName funcName mode : String) (func : σ → Except Err α × σ)
    (st : σ) (s : LogState)
    (hw : ∀ e st2, func st = (.error e, st2) → watched e = true) :
    ∃ outcome : LogRecord,
      (logged watched excName funcName mode func st s).2.records =
        s.records ++
          [⟨funcName, mode, .info, "Calling " ++ funcName⟩, outcome] := by
  unfold logged
  rcases hf : func st with ⟨r, st2⟩
  cases r with
  | ok b =>
    refine ⟨⟨funcName, mode, .info, funcName ++ " executed successfully"⟩, ?_⟩
    simp [emit, closeHandler]
  | error e =>
    have hww := hw e st2 hf
    refine ⟨⟨funcName, mode, .error, excName ++ ": " ++ errStr e⟩, ?_⟩
    simp [hww, emit, closeHandler]

theorem stripWS_tag (e : Element) : (stripWS e).tag = e.tag := by
  cases e
  rfl

theorem stripWS_attrib (e : Element) : (stripWS e).attrib = e.attrib := by
  cases e
  rfl

theorem stripWS_children (e : Element) :
    (stripWS e).children = stripKids e.children := by
  cases e
  rfl

theorem read_of_xml (h : XMLFileHandler) (fs : FS) (w : Bool) (root : Element)
    (hlk : fs.lookup h.filepath = some (.file true w (.xml root))) :
    h.read fs = (.ok root, fs) := by
  unfold XMLFileHandler.read fsParse
  rw [hlk]

theorem read_unreadable (h : XMLFileHandler) (fs : FS) (w : Bool) (c : Content)
    (hlk : fs.lookup h.filepath = some (.file false w c)) :
    h.read fs = (.error (.fileCorrupted h.filepath "Permission denied"), fs) := by
  unfold XMLFileHandler.read fsParse
  rw [hlk]
  rfl

theorem fsParse_of_xml (fs : FS) (p : String) (w : Bool) (root : Element)
    (hlk : fs.lookup p = some (.file true w (.xml root))) :
    fsParse fs p = .ok root := by
  unfold fsParse
  rw [hlk]

theorem fsWrite_of_writable (fs : FS) (p : String) (r : Bool) (c : Content)
    (root : Element) (hlk : fs.lookup p = some (.file r true c)) :
    fsWrite fs p root = .ok (fs.set p (.file r true (.xml root))) := by
  unfold fsWrite
  rw [hlk]

theorem write_ok_spec (h : XMLFileHandler) (root : Element) (fs : FS)
    (hw : (h.write root fs).1 = .ok ()) :
    ∃ r : Bool, (h.write root fs).2 =
      fs.set h.filepath (.file r true (.xml (ETindent root))) := by
  unfold XMLFileHandler.write at hw ⊢
  rcases hfw : fsWrite fs h.filepath (ETindent root) with exc | fs3
  · rw [hfw] at hw
    simp at hw
  · unfold fsWrite at hfw
    rcases hlk : fs.lookup h.filepath with _ | entry <;> rw [hlk] at hfw
    · dsimp only at hfw
      cases hfw
      exact ⟨true, rfl⟩
    · rcases entry with ⟨r, w, c⟩ | _
      · cases w
        · simp at hfw
        · dsimp only at hfw
          cases hfw
          exact ⟨r, rfl⟩
      · simp at hfw

/-! Concrete sample data, matching the demo in `lab6.py`'s main block. -/

def demoItem : Element := .mk "item" [("id", "1")] (some "First Element") [] none

def demoRoot : Element := .mk "data" [] none [demoItem] none

def fsDemo : FS := [("demo.xml", .file true true (.xml demoRoot))]

def newRoot : Element :=
  .mk "data" [] none [.mk "item" [("id", "100")] (some "New Content") [] none] none

def newItem : Element := .mk "item" [("id", "2")] (some "Second Element") [] none

def s0 : LogState := ⟨0, [], [], []⟩

def fsTxt : FS := [("notes.txt", .file true true (.raw "plain text"))]

def fsDir : FS := [("d.xml", .dir)]

def fsLocked : FS := [("locked.xml", .file false true (.xml demoRoot))]

/-- Modelled from the spec: a path has a recognized XML extension when it ends
in `.xml`.  `lab6.py` itself contains no extension check at all; this predicate
exists only to state the extension-related claims. -/
def hasXmlExtension (p : String) : Bool :=
  List.isSuffixOf ".xml".data p.data

/-- C3 (counterexample): the path `notes.txt` has no recognized XML extension,
yet when it exists the constructor succeeds — `XMLFileHandler.__init__` never
raises an `InvalidFileType` error (no such error exists in `lab6.py`); the
only validation is `os.path.exists`. -/
theorem c3_extension_counterexample :
    hasXmlExtension "notes.txt" = false ∧
    XMLFileHandler.init fsTxt "notes.txt" = .ok ⟨"notes.txt"⟩ := by
  constructor
  · decide
  · rfl

/-- C3 (amended): constructing an accessor performs no extension check at all:
for every path with an entry on the filesystem — whatever its extension —
construction succeeds, and for every path without one it fails with
`CustomFileNotFoundError`; no `InvalidFileType` error kind exists in the code. -/
theorem c3_no_extension_check (fs : FS) (p : String)
    (hex : (fs.lookup p).isSome = true) :
    XMLFileHandler.init fs p = .ok ⟨p⟩ := by
  unfold XMLFileHandler.init
  rw [if_pos hex]

/-- Witness for C3 (amended) at the concrete non-XML path `notes.txt`. -/
theorem c3_no_extension_check_witness :
    XMLFileHandler.init fsTxt "notes.txt" = .ok ⟨"notes.txt"⟩ :=
  c3_no_extension_check fsTxt "notes.txt" (by rfl)

/-- C4: constructing an accessor on a path with a valid XML extension that has
no filesystem entry fails with the `CustomFileNotFoundError` kind. -/
theorem c4_missing_file_not_found (fs : FS) (p : String)
    (_hext : hasXmlExtension p = true) (hlk : fs.lookup p = none) :
    XMLFileHandler.init fs p = .error (.fileNotFound ("File not found: " ++ p)) := by
  unfold XMLFileHandler.init
  rw [hlk]
  rfl

/-- Witness for C4 at the concrete path `absent.xml` on the demo filesystem. -/
theorem c4_missing_file_not_found_witness :
    XMLFileHandler.init fsDemo "absent.xml" =
      .error (.fileNotFound ("File not found: " ++ "absent.xml")) :=
  c4_missing_file_not_found fsDemo "absent.xml" (by decide) rfl

/-- C5 (counterexample): on the existing directory `d.xml`, construction does
not fail at all — `os.path.exists` is true for directories, so the
constructor returns a handler instead of raising `FileCorruptedError`. -/
theorem c5_dir_counterexample :
    fsDir.lookup "d.xml" = some .dir ∧
    XMLFileHandler.init fsDir "d.xml" = .ok ⟨"d.xml"⟩ := by
  constructor
  · rfl
  · rfl

/-- C5 (amended): constructing an accessor on a path that exists but is a
directory succeeds; the `FileCorrupted` failure only surfaces when an
operation is invoked, e.g. `read`, which wraps the `IsADirectoryError` raised
by `ET.parse` into `FileCorruptedError`. -/
theorem c5_dir_fails_on_read (fs : FS) (p : String)
    (hlk : fs.lookup p = some .dir) :
    XMLFileHandler.init fs p = .ok ⟨p⟩ ∧
    (XMLFileHandler.mk p).read fs =
      (.error (.fileCorrupted p ("[Errno 21] Is a directory: " ++ p)), fs) := by
  constructor
  · unfold XMLFileHandler.init
    rw [if_pos (by rw [hlk]; rfl)]
  · unfold XMLFileHandler.read fsParse
    show (match fs.lookup p with | _ => _) = _
    rw [hlk]
    rfl

/-- Witness for C5 (amended) at the concrete directory `d.xml`. -/
theorem c5_dir_fails_on_read_witness :
    XMLFileHandler.init fsDir "d.xml" = .ok ⟨"d.xml"⟩ ∧
    (XMLFileHandler.mk "d.xml").read fsDir =
      (.error (.fileCorrupted "d.xml"
        ("[Errno 21] Is a directory: " ++ "d.xml")), fsDir) :=
  c5_dir_fails_on_read fsDir "d.xml" rfl

/-- C6 (counterexample): for a read that fails with a permission error, the
raised `FileCorruptedError` carries the fixed payload "Permission denied" and
not the underlying cause's message (here `[Errno 13] Permission denied:
locked.xml`), so the payload does not preserve the cause's message. -/
theorem c6_permission_counterexample :
    ((XMLFileHandler.mk "locked.xml").read fsLocked).1 =
      .error (.fileCorrupted "locked.xml" "Permission denied") ∧
    fsParse fsLocked "locked.xml" =
      .error (.permissionError ("[Errno 13] Permission denied: " ++ "locked.xml")) ∧
    ("Permission denied" : String) ≠ "[Errno 13] Permission denied: " ++ "locked.xml" := by
  refine ⟨rfl, rfl, ?_⟩
  decide

/-- C6 (amended): every failure during `read` is re-raised as the
`FileCorruptedError` kind; the payload preserves the underlying message for
XML parse errors (prefixed with "XML error: ") and for unexpected errors, but
permission errors are replaced by the fixed message "Permission denied". -/
theorem c6_read_error_wrapping (p m : String) :
    wrapExc p (.parseError m) = .fileCorrupted p ("XML error: " ++ m) ∧
    wrapExc p (.other m) = .fileCorrupted p m ∧
    wrapExc p (.permissionError m) = .fileCorrupted p "Permission denied" ∧
    (∀ exc : PyExc, ∃ m2 : String, wrapExc p exc = .fileCorrupted p m2) ∧
    (∀ (h : XMLFileHandler) (fs : FS) (e : Err) (fs2 : FS),
      h.read fs = (.error e, fs2) → isFileCorrupted e = true) :=
  ⟨rfl, rfl, rfl,
    fun exc => by cases exc <;> exact ⟨_, rfl⟩,
    fun h fs e fs2 he => read_error_watched h fs e fs2 he⟩

/-- C7: the instrumentation wrapper is transparent — for every wrapped
operation over any state, the wrapped call's result (normal value, or error
of any category including the watched one) is exactly the wrapped operation's
own result: nothing is swallowed or replaced. -/
theorem c7_logged_transparent (α σ : Type) (watched : Err → Bool)
    (excName funcName mode : String) (func : σ → Except Err α × σ)
    (st : σ) (s : LogState) :
    (logged watched excName funcName mode func st s).1 = func st :=
  logged_result α σ watched excName funcName mode func st s

/-- C8: on every exit path of a wrapped call (normal return, watched error, or
unwatched error), the handler acquired for the call is detached — the logger's
handler list ends empty — and its sink handle is closed, restoring the set of
open handles, so repeated calls accumulate neither open handles nor duplicate
handler registrations.  The freshness hypothesis says the newly allocated
handle id is not already open. -/
theorem c8_sink_released (α σ : Type) (watched : Err → Bool)
    (excName funcName mode : String) (func : σ → Except Err α × σ)
    (st : σ) (s : LogState)
    (hfresh : ∀ hh ∈ s.openHandles, hh ≠ s.nextId) :
    (logged watched excName funcName mode func st s).2.handlers = [] ∧
    (logged watched excName funcName mode func st s).2.openHandles =
      s.openHandles := by
  have h1 : List.filter (fun hh => hh ≠ s.nextId) s.openHandles =
      s.openHandles :=
    List.filter_eq_self.mpr (fun a ha => by simpa using hfresh a ha)
  unfold logged
  rcases hf : func st with ⟨r, st2⟩
  cases r with
  | ok b =>
    constructor <;>
      simp [emit, closeHandler, List.filter_append, h1] <;>
        exact fun a ha => hfresh a ha
  | error e =>
    by_cases hwe : watched e = true <;>
      constructor <;>
        simp [hwe, emit, closeHandler, List.filter_append, h1] <;>
          exact fun a ha => hfresh a ha

/-- Witness for C8: the decorated `read` on the demo filesystem from a clean
log state leaves no handler registered and no handle open. -/
theorem c8_sink_released_witness :
    ((XMLFileHandler.mk "demo.xml").readLogged fsDemo s0).2.handlers = [] ∧
    ((XMLFileHandler.mk "demo.xml").readLogged fsDemo s0).2.openHandles =
      s0.openHandles :=
  c8_sink_released Element FS isFileCorrupted "FileCorruptedError" "read"
    "console" (XMLFileHandler.mk "demo.xml").read fsDemo s0 (by simp [s0])

/-- C9 (counterexample): one successful call to the decorated `read` emits two
log records — `Calling read` and `read executed successfully` — not exactly
one. -/
theorem c9_two_records_counterexample :
    ((XMLFileHandler.mk "demo.xml").readLogged fsDemo s0).2.records.length = 2 ∧
    ¬ ((XMLFileHandler.mk "demo.xml").readLogged fsDemo s0).2.records.length = 1 := by
  constructor
  · rfl
  · decide

/-- C9 (amended): every call to the decorated `read`, `write`, or `append` —
whether it succeeds or fails (every failure of these operations is of the
watched `FileCorruptedError` category) — appends exactly two log records: a
start record and an outcome record. -/
theorem c9_exactly_two_records (h : XMLFileHandler) (fs : FS) (s : LogState)
    (root newE : Element) :
    (h.readLogged fs s).2.records.length = s.records.length + 2 ∧
    (h.writeLogged root fs s).2.records.length = s.records.length + 2 ∧
    (h.appendLogged newE fs s).2.records.length = s.records.length + 2 := by
  refine ⟨?_, ?_, ?_⟩
  · obtain ⟨o, ho⟩ := logged_records_two Element FS isFileCorrupted
      "FileCorruptedError" "read" "console" h.read fs s
      (fun e st2 he => read_error_watched h fs e st2 he)
    show (logged isFileCorrupted "FileCorruptedError" "read" "console"
      h.read fs s).2.records.length = _
    rw [ho]
    simp
  · obtain ⟨o, ho⟩ := logged_records_two Unit FS isFileCorrupted
      "FileCorruptedError" "write" "file" (h.write root) fs s
      (fun e st2 he => write_error_watched h root fs e st2 he)
    show (logged isFileCorrupted "FileCorruptedError" "write" "file"
      (h.write root) fs s).2.records.length = _
    rw [ho]
    simp
  · obtain ⟨o, ho⟩ := logged_records_two Unit FS isFileCorrupted
      "FileCorruptedError" "append" "file" (h.append newE) fs s
      (fun e st2 he => append_error_watched h newE fs e st2 he)
    show (logged isFileCorrupted "FileCorruptedError" "append" "file"
      (h.append newE) fs s).2.records.length = _
    rw [ho]
    simp

/-- C10: `read` never modifies the filesystem — both the bare method and its
decorated version return the filesystem unchanged, whether parsing succeeds
or a `FileCorruptedError` is raised (the method only invokes `ET.parse`,
which performs no writes). -/
theorem c10_read_frame (h : XMLFileHandler) (fs : FS) (s : LogState) :
    (h.read fs).2 = fs ∧ (h.readLogged fs s).1.2 = fs := by
  have h1 : (h.read fs).2 = fs := by
    unfold XMLFileHandler.read
    rcases hp : fsParse fs h.filepath with exc | root <;> rfl
  refine ⟨h1, ?_⟩
  have h2 : (h.readLogged fs s).1 = h.read fs :=
    logged_result Element FS isFileCorrupted "FileCorruptedError" "read"
      "console" h.read fs s
  rw [h2]
  exact h1

/-- C1: round trip — if `write(root)` succeeds and a subsequent `read` on the
same accessor returns `e`, then `e` is identical to `root` modulo
whitespace/indentation formatting, and its children are exactly the written
document's (normalized) children: `write` fully replaced the prior content,
so the read never shows a union of old and new children. -/
theorem c1_write_read_roundtrip (h : XMLFileHandler) (fs : FS)
    (root e : Element)
    (hw : (h.write root fs).1 = .ok ())
    (hr : (h.read (h.write root fs).2).1 = .ok e) :
    stripWS e = stripWS root ∧
    (stripWS e).children = stripKids root.children := by
  obtain ⟨r, hset⟩ := write_ok_spec h root fs hw
  have hlk2 : ((h.write root fs).2).lookup h.filepath =
      some (.file r true (.xml (ETindent root))) := by
    rw [hset]
    exact FS.lookup_set_self fs h.filepath _
  cases r with
  | false =>
    have hru := read_unreadable h ((h.write root fs).2) true
      (.xml (ETindent root)) hlk2
    rw [hru] at hr
    simp at hr
  | true =>
    have hread := read_of_xml h ((h.write root fs).2) true
      (ETindent root) hlk2
    rw [hread] at hr
    simp only [Except.ok.injEq] at hr
    subst hr
    constructor
    · exact stripWS_ETindent root
    · rw [stripWS_ETindent, stripWS_children]

/-- Witness for C1: writing the replacement document
`<data><item id="100">New Content</item></data>` over the demo file and
reading it back yields that document modulo whitespace. -/
theorem c1_write_read_roundtrip_witness :
    stripWS (ETindent newRoot) = stripWS newRoot ∧
    (stripWS (ETindent newRoot)).children = stripKids newRoot.children :=
  c1_write_read_roundtrip ⟨"demo.xml"⟩ fsDemo newRoot (ETindent newRoot)
    rfl rfl

/-- C2: `append` is observably additive — for an accessor on a parseable XML
file whose root has N children, if one `append` succeeds and a subsequent
`read` returns `root2`, then `root2` (normalized) keeps the root's tag and
attributes, has the appended element as its last child, has the first N
children unchanged (in tag and attributes exactly, in text modulo
whitespace-only fields), and has N+1 children. -/
theorem c2_append_additive (h : XMLFileHandler) (fs : FS) (r w : Bool)
    (root newE root2 : Element)
    (hlk : fs.lookup h.filepath = some (.file r w (.xml root)))
    (ha : (h.append newE fs).1 = .ok ())
    (hr : (h.read (h.append newE fs).2).1 = .ok root2) :
    (stripWS root2).tag = root.tag ∧
    (stripWS root2).attrib = root.attrib ∧
    (stripWS root2).children = (stripWS root).children ++ [stripWS newE] ∧
    (stripWS root2).children.length = root.children.length + 1 := by
  cases r with
  | false =>
    have hp : fsParse fs h.filepath =
        .error (.permissionError ("[Errno 13] Permission denied: " ++ h.filepath)) := by
      unfold fsParse
      rw [hlk]
    unfold XMLFileHandler.append at ha
    rw [hp] at ha
    simp at ha
  | true =>
    have hp : fsParse fs h.filepath = .ok root := fsParse_of_xml fs _ w root hlk
    cases w with
    | false =>
      have hfw : fsWrite fs h.filepath (ETindent (root.appendChild newE)) =
          .error (.permissionError ("[Errno 13] Permission denied: " ++ h.filepath)) := by
        unfold fsWrite
        rw [hlk]
      unfold XMLFileHandler.append at ha
      rw [hp] at ha
      dsimp only at ha
      rw [hfw] at ha
      simp at ha
    | true =>
      have hfw := fsWrite_of_writable fs h.filepath true (.xml root)
        (ETindent (root.appendChild newE)) hlk
      have happ : h.append newE fs = (.ok (), fs.set h.filepath
          (.file true true (.xml (ETindent (root.appendChild newE))))) := by
        unfold XMLFileHandler.append
        rw [hp]
        dsimp only
        rw [hfw]
      have hlk2 : ((h.append newE fs).2).lookup h.filepath =
          some (.file true true (.xml (ETindent (root.appendChild newE)))) := by
        rw [happ]
        exact FS.lookup_set_self fs h.filepath _
      have hread := read_of_xml h ((h.append newE fs).2) true
        (ETindent (root.appendChild newE)) hlk2
      rw [hread] at hr
      simp only [Except.ok.injEq] at hr
      subst hr
      rw [stripWS_ETindent]
      rcases root with ⟨t, a, tx, cs, tl⟩
      refine ⟨rfl, rfl, ?_, ?_⟩
      · show stripKids (cs ++ [newE]) = stripKids cs ++ [stripWS newE]
        exact stripKids_append cs newE
      · show (stripKids (cs ++ [newE])).length = cs.length + 1
        rw [stripKids_append, List.length_append, stripKids_length]
        rfl

/-- Witness for C2: appending `<item id="2">Second Element</item>` to the
demo document `<data><item id="1">First Element</item></data>` and reading
back yields two children, the original first. -/
theorem c2_append_additive_witness :
    (stripWS (ETindent (demoRoot.appendChild newItem))).tag = demoRoot.tag ∧
    (stripWS (ETindent (demoRoot.appendChild newItem))).attrib =
      demoRoot.attrib ∧
    (stripWS (ETindent (demoRoot.appendChild newItem))).children =
      (stripWS demoRoot).children ++ [stripWS newItem] ∧
    (stripWS (ETindent (demoRoot.appendChild newItem))).children.length =
      demoRoot.children.length + 1 :=
  c2_append_additive ⟨"demo.xml"⟩ fsDemo true true demoRoot newItem
    (ETindent (demoRoot.appendChild newItem)) rfl rfl rfl

end Lab6
